import Mathlib

/-!
# Verification of the pyroomacoustics_env_web acoustic simulation core

Shallow embedding of `src/backend/simulation.py` and
`src/backend/algorithms/doa.py`. Audio signals are lists of rationals
(the Python code works on float arrays; the claims under study concern
exact structural facts — normalization factors, list lengths, skipping
logic — which are faithfully captured over ℚ). The heavy acoustic
library calls (`pyroomacoustics` room simulation and the three DOA
algorithms) are external to this repository and are abstracted as
oracle parameters; everything the repository's own code does around
them is embedded directly.
-/

namespace PyRoomSim

/-- A time-domain audio signal: a sequence of (real-valued) samples,
modelled over ℚ. -/
abbrev Signal := List ℚ

/-- `np.max(np.abs(s))` over a signal, with 0 for the empty signal. -/
def maxAbs (s : Signal) : ℚ :=
  s.foldr (fun x acc => max |x| acc) 0

/-- Peak normalization from `simulation.py` (lines 234–236 for the
per-source signals and 249–251 for the mixed signal):

    max_val = np.max(np.abs(signal))
    if max_val > 0:
        signal = signal / max_val * 0.9
-/
def peakNormalize (s : Signal) : Signal :=
  let m := maxAbs s
  if 0 < m then s.map (fun x => x / m * (9 / 10)) else s

/-- `np.min` of a response curve (first element seeds the fold; 0 for
the empty list, which `np.min` would reject — the curves produced by
the DOA grid are never empty). -/
def minL : List ℚ → ℚ
  | [] => 0
  | x :: xs => xs.foldr min x

/-- `np.max` of a response curve, same convention as `minL`. -/
def maxL : List ℚ → ℚ
  | [] => 0
  | x :: xs => xs.foldr max x

/-- Spatial-response normalization as written inline in
`simulation.py` lines 185–190: min–max normalize only when
`max_val > min_val`; otherwise the curve is left as it is (there is no
`else` branch in that file). -/
def normalizeRespSim (resp : List ℚ) : List ℚ :=
  if minL resp < maxL resp then
    resp.map (fun v => (v - minL resp) / (maxL resp - minL resp))
  else
    resp

/-- Spatial-response normalization from `doa.py` lines 98–103: min–max
normalize when `max_val > min_val`, and otherwise replace the curve by
`np.zeros_like(spatial_response)`. -/
def normalizeRespDoa (resp : List ℚ) : List ℚ :=
  if minL resp < maxL resp then
    resp.map (fun v => (v - minL resp) / (maxL resp - minL resp))
  else
    List.replicate resp.length 0

/-- The per-microphone length equalization of `doa.py` lines 64–66:

    min_length = min(len(s) for s in mic_signals)
    mic_signals = [s[:min_length] for s in mic_signals]

The minimum length of the channel list (0 when the list is empty;
`run_doa` guarantees at least two channels before reaching this point).
-/
def minLength (sigs : List Signal) : ℕ :=
  match sigs with
  | [] => 0
  | s :: rest => rest.foldr (fun t acc => min t.length acc) s.length

/-- `doa.py` lines 64–66: every channel is cut down to the shortest
channel's length. -/
def equalizeLengths (sigs : List Signal) : List Signal :=
  sigs.map (fun s => s.take (minLength sigs))

/-- Modelled from the spec (§4.4): the STFT-engine input conditioning the
spec describes — "zero-padded to a common length if mismatched". This
definition follows the spec's words (pad every channel with zeros up to
the longest channel's length) and exists only to be compared with
`equalizeLengths`, the conditioning the source actually performs. -/
def zeroPadToCommon (sigs : List Signal) : List Signal :=
  let maxLen := sigs.foldr (fun t acc => max t.length acc) 0
  sigs.map (fun s => s ++ List.replicate (maxLen - s.length) 0)

/-! ## Fixed engine parameters (`simulation.py` lines 9–17) -/

/-- Sampling rate, Hz (`FS = 16000`). -/
def FS : ℕ := 16000

/-- Maximum image-source reflection order (`MAX_ORDER = 3`). -/
def MAX_ORDER : ℕ := 3

/-- Wall absorption coefficient (`ABSORPTION = 0.2`). -/
def ABSORPTION : ℚ := 2 / 10

/-- Room height in meters (`ROOM_HEIGHT = 2.5`). -/
def ROOM_HEIGHT : ℚ := 5 / 2

/-- Microphone height in meters (`MIC_HEIGHT = 1.0`). -/
def MIC_HEIGHT : ℚ := 1

/-- Source height in meters (`SOURCE_HEIGHT = 1.0`). -/
def SOURCE_HEIGHT : ℚ := 1

/-- STFT/FFT size (`NFFT = 256`). -/
def NFFT : ℕ := 256

/-- STFT hop, `NFFT // 2` as passed to `pra.transform.stft.analysis`. -/
def STFT_HOP : ℕ := NFFT / 2

/-! ## Input data model (`main.py` pydantic models / `simulation.py` args) -/

/-- A 2-D point in pixel coordinates. -/
structure Pt where
  x : ℚ
  y : ℚ
deriving DecidableEq, Repr

/-- One requested audio source: a name (the audio file key) and an
optional placed position (`position: Optional[Point] = None`). -/
structure AudioSource where
  name : String
  position : Option Pt
deriving DecidableEq, Repr

/-- The `audio_files` dictionary handed to `run_simulation`, together
with the outcome of decoding each entry: `some sig` means
`wavfile.read` succeeds and (after the boundary's resampling/mono/scaling
conditioning of lines 116–128) yields the dry signal `sig`; `none`
means reading raises, which the `except` at line 133 turns into a skip. -/
abbrev AudioFiles := List (String × Option Signal)

/-- Dictionary lookup `filename in audio_files` / `audio_files[filename]`. -/
def lookupFile (files : AudioFiles) (n : String) : Option (Option Signal) :=
  (files.find? (fun p => p.1 = n)).map Prod.snd

/-- The source-admission loop of `simulation.py` lines 102–135: a source
is kept iff its position is set, its name is a key of `audio_files`, and
the audio payload decodes; kept sources carry their (pixel) position and
their dry signal, in request order. -/
def activeSources (sources : List AudioSource) (files : AudioFiles) :
    List (Pt × Signal) :=
  sources.filterMap (fun s =>
    match s.position with
    | none => none
    | some p =>
      match lookupFile files s.name with
      | none => none
      | some none => none
      | some (some sig) => some (p, sig))

/-- Microphone placement, `simulation.py` lines 86–96: each normalized
mic offset `(nx, ny)` becomes the absolute 3-D position
`(robot_x + nx·robot_r, robot_y + ny·robot_r, MIC_HEIGHT)` with the
robot center and radius converted from pixels to meters. -/
def micPositions (robotPos : Pt) (robotRadius scale : ℚ)
    (mics : List (ℚ × ℚ)) : List (ℚ × ℚ × ℚ) :=
  mics.map (fun m =>
    (robotPos.x / scale + m.1 * (robotRadius / scale),
     robotPos.y / scale + m.2 * (robotRadius / scale),
     MIC_HEIGHT))

/-! ## Signal arithmetic used by the output stage -/

/-- Elementwise sum of two signals (numpy `+` on equal-length arrays;
the shorter list is implicitly zero-padded, which never triggers on the
equal-length arrays the code produces). -/
def addSig : Signal → Signal → Signal
  | [], b => b
  | a, [] => a
  | x :: xs, y :: ys => (x + y) :: addSig xs ys

/-- Per-channel sum of two channel lists (numpy `+` on `(n_mics, n)` arrays). -/
def addChannels : List Signal → List Signal → List Signal
  | [], b => b
  | a, [] => a
  | c :: cs, d :: ds => addSig c d :: addChannels cs ds

/-- `room.mic_array.signals`: the per-microphone sum across sources of
the premix channels (`pyroomacoustics` computes the array signal as the
sum of the per-source contributions). -/
def micArraySignals (premix : List (List Signal)) : List Signal :=
  premix.foldr addChannels []

/-- `np.mean(channels, axis=0)`: elementwise sum divided by the channel
count. -/
def meanSignal (channels : List Signal) : Signal :=
  (channels.foldr addSig []).map (fun x => x / (channels.length : ℚ))

/-! ## The simulation result and the external-library oracle -/

/-- The DOA bundle of `simulation.py` lines 216–221. `truePositions`
records the pixel positions fed to the true-angle loop of lines
204–214 (those sources whose position is set); the real-valued bearing
of each is `trueAngle robotPos p` (defined below over ℝ). -/
structure SimDoa where
  azimuthGrid : List ℚ
  spatialResponse : List (String × List ℚ)
  estimatedAngles : List (String × List ℚ)
  truePositions : List Pt
deriving DecidableEq, Repr

/-- The dictionary returned by `run_simulation` (lines 259–272):
success flag, message, output file names, and the optional DOA bundle.
`outputSignals` records, parallel to `outputFiles`, the sample data
written into each file. -/
structure SimResult where
  success : Bool
  message : String
  outputFiles : List String
  outputSignals : List Signal
  doa : Option SimDoa
deriving DecidableEq, Repr

/-- Oracle for the external `pyroomacoustics` computations that
`run_simulation` calls but this repository does not implement:
`render src mics` is the premix block `room.simulate(return_premix=True)`
restricted to one source (one wet signal per microphone); `resp a` is
the raw spatial-response grid `doa.grid.values` of algorithm `a`;
`recon a` is `doa.azimuth_recon`; `grid` is `doa.grid.azimuth`. The
theorems below hold for every oracle, i.e. for every behaviour of the
library. -/
structure SimOracle where
  render : Pt × Signal → List (ℚ × ℚ × ℚ) → List Signal
  resp : String → List ℚ
  recon : String → List ℚ
  grid : List ℚ

/-- The three DOA algorithms run at `simulation.py` line 166. -/
def algoNames : List String := ["SRP", "MUSIC", "TOPS"]

/-- Arguments of `run_simulation` other than `audio_files`' decoded
payloads (which live in `AudioFiles`). -/
structure SimInputs where
  roomCoords : List Pt
  robotPosition : Pt
  robotRadius : ℚ
  microphones : List (ℚ × ℚ)
  audioSources : List AudioSource
  audioFiles : AudioFiles
  scale : ℚ
deriving Repr

/-- Shallow embedding of `run_simulation` (`simulation.py` lines
31–272). Control flow follows the source: fail on an empty microphone
list (lines 77–83); admit sources (lines 102–135) and fail when none
survives (lines 137–143); run the three DOA algorithms only with ≥ 2
microphones (lines 154–224), normalizing each response with the inline
normalizer of lines 185–190; emit one peak-normalized mean signal per
admitted source (lines 230–242) and one peak-normalized mixed signal
only when more than one source was admitted (lines 245–257). File
names drop the per-run `uuid` session id, which is output-boundary
bookkeeping. -/
def runSimulation (inp : SimInputs) (o : SimOracle) : SimResult :=
  if inp.microphones.length = 0 then
    { success := false
      message := "no microphones placed"
      outputFiles := []
      outputSignals := []
      doa := none }
  else
    let micPos := micPositions inp.robotPosition inp.robotRadius inp.scale
      inp.microphones
    let survivors := activeSources inp.audioSources inp.audioFiles
    if survivors.length = 0 then
      { success := false
        message := "no sources placed or loadable"
        outputFiles := []
        outputSignals := []
        doa := none }
    else
      let premix := survivors.map (fun s => o.render s micPos)
      let doaResult : Option SimDoa :=
        if 2 ≤ inp.microphones.length then
          some { azimuthGrid := o.grid
                 spatialResponse :=
                   algoNames.map (fun a => (a, normalizeRespSim (o.resp a)))
                 estimatedAngles := algoNames.map (fun a => (a, o.recon a))
                 truePositions :=
                   inp.audioSources.filterMap (fun s => s.position) }
        else none
      let perSourceSignals := premix.map (fun pm => peakNormalize (meanSignal pm))
      let perSourceFiles := (List.range premix.length).map
        (fun i => "source_" ++ toString (i + 1) ++ ".wav")
      let mixedSignals :=
        if 1 < survivors.length then
          [peakNormalize (meanSignal (micArraySignals premix))]
        else []
      let mixedFiles := if 1 < survivors.length then ["mixed.wav"] else []
      { success := true
        message := "simulation complete"
        outputFiles := perSourceFiles ++ mixedFiles
        outputSignals := perSourceSignals ++ mixedSignals
        doa := doaResult }

/-! ## Ground-truth bearing calculation

`np.arctan2` is transcendental, so this part of the embedding lives
over ℝ (the one place where an executable model is impossible); it is
modelled by `Complex.arg`, which agrees with `arctan2` everywhere,
including `arctan2 0 0 = 0` and the range `(-π, π]`. -/

/-- `np.arctan2 y x`, the angle of the point `(x, y)`. -/
noncomputable def atan2 (y x : ℝ) : ℝ := Complex.arg (Complex.mk x y)

/-- The body of the true-angle loops (`doa.py` lines 149–156 and
`simulation.py` lines 208–214): displacement from the robot, vertical
component sign-inverted for the downward-increasing canvas axis,
`arctan2`, then a full turn added when the result is negative. -/
noncomputable def trueAngle (robot src : ℝ × ℝ) : ℝ :=
  let dx := src.1 - robot.1
  let dy := src.2 - robot.2
  let angle := atan2 (-dy) dx
  if angle < 0 then angle + 2 * Real.pi else angle

/-- `calculate_true_angles` from `doa.py` lines 126–158: `None` entries
are skipped (`continue`), every other entry contributes its bearing.
The `scale` argument is accepted, exactly as in the source, where the
loop body never reads it. -/
noncomputable def calculate_true_angles (robotPosition : ℝ × ℝ)
    (sourcePositions : List (Option (ℝ × ℝ))) (scale : ℝ) : List ℝ :=
  sourcePositions.filterMap (fun s => s.map (trueAngle robotPosition))

/-- The inline true-angle loop of `simulation.py` lines 204–214, which
iterates the requested sources and skips those without a position. -/
noncomputable def simTrueAngles (robotPosition : ℝ × ℝ)
    (sources : List (Option (ℝ × ℝ))) : List ℝ :=
  sources.filterMap (fun s => s.map (trueAngle robotPosition))

/-! ## Seeded stochastic ray tracing (modelled from the spec)

The ray tracer itself lives in the `pyroomacoustics` dependency, not in
this repository; `simulation.py` lines 148–151 only invoke it. The spec
(§4.2, §8) requires the ray directions to come from a seedable
pseudo-random generator and the whole pipeline to be a deterministic
function of inputs and seed. The model below captures exactly that
structure: a deterministic generator, a stream of draws, an RIR built
from the draws, and a run relation that ties a pipeline execution to
its seed. -/

/-- Modelled from the spec (§4.2): one step of the seedable
pseudo-random generator the ray tracer draws directions from (a
Lehmer-style linear congruential generator modulo 2^16 + 1). -/
def lcgNext (s : ℕ) : ℕ := (75 * s + 74) % 65537

/-- Modelled from the spec (§4.2): the stream of `n` successive
generator outputs from seed `s`. -/
def prngStream : ℕ → ℕ → List ℕ
  | _, 0 => []
  | s, n + 1 => lcgNext s :: prngStream (lcgNext s) n

/-- Modelled from the spec (§4.2): the configurable number of rays
fired per run. -/
def N_RAYS : ℕ := 16

/-- Linear convolution (§4.3: wet signal = dry signal ⨂ RIR, full
length `len(a) + len(b) − 1`, no truncation). -/
def convolve : Signal → Signal → Signal
  | [], _ => []
  | x :: xs, b => addSig (b.map (fun v => x * v)) (0 :: convolve xs b)

/-- Modelled from the spec (§4.1–§4.2): the room impulse response as a
function of the ray-tracing draws — a unit direct-path tap followed by
the diffuse tail derived deterministically from the generator draws.
(The geometric content of the taps is irrelevant to the determinism
claim, which is about the randomness; what matters is that the RIR is a
function of the draws alone once inputs are fixed.) -/
def modelRIR (draws : List ℕ) : Signal :=
  1 :: draws.map (fun k => (k : ℚ) / 65537)

/-- The oracle induced by a fixed list of ray-tracing draws: rendering
convolves the dry signal with the draw-determined RIR; the DOA grids
are deterministic. -/
def oracleFrom (draws : List ℕ) : SimOracle :=
  { render := fun s mics => mics.map (fun _ => convolve s.2 (modelRIR draws))
    resp := fun _ => []
    recon := fun _ => []
    grid := [] }

/-- The room impulse responses of a run: one per admitted
source–microphone pair, each determined by the draws. -/
def rirsFrom (inp : SimInputs) (draws : List ℕ) : List (List Signal) :=
  (activeSources inp.audioSources inp.audioFiles).map (fun _ =>
    (micPositions inp.robotPosition inp.robotRadius inp.scale
      inp.microphones).map (fun _ => modelRIR draws))

/-- `IsStream s n draws` holds when `draws` is a possible sequence of
`n` generator outputs from seed `s` — the constructors force each draw
to be the generator's next output, so a seed admits exactly one stream. -/
inductive IsStream : ℕ → ℕ → List ℕ → Prop
  | nil (s : ℕ) : IsStream s 0 []
  | cons (s n : ℕ) (rest : List ℕ) :
      IsStream (lcgNext s) n rest → IsStream s (n + 1) (lcgNext s :: rest)

/-- A full pipeline execution from inputs `inp` and seed `seed`: some
valid stream of ray draws is taken, the RIRs are synthesized from it
and the outputs rendered through them. The result pairs the emitted
`SimResult` with the run's RIRs. -/
inductive PipelineRun (inp : SimInputs) (seed : ℕ) :
    SimResult × List (List Signal) → Prop
  | mk (draws : List ℕ) (h : IsStream seed N_RAYS draws) :
      PipelineRun inp seed
        (runSimulation inp (oracleFrom draws), rirsFrom inp draws)

/-! ## Concrete example inputs (used by the witness theorems) -/

/-- A concrete simulation request: a 5 m × 4 m room at scale 100 px/m,
a two-microphone array on a robot at the room center, one placed source
with a loadable three-sample payload, one unplaced source and one
source whose payload fails to decode. -/
def inpEx : SimInputs :=
  { roomCoords := [⟨0, 0⟩, ⟨500, 0⟩, ⟨500, 400⟩, ⟨0, 400⟩]
    robotPosition := ⟨250, 200⟩
    robotRadius := 10
    microphones := [(1, 0), (-1, 0)]
    audioSources :=
      [⟨"a.wav", some ⟨250, 350⟩⟩, ⟨"b.wav", none⟩, ⟨"c.wav", some ⟨100, 100⟩⟩]
    audioFiles := [("a.wav", some [1, -2, 1]), ("c.wav", none)]
    scale := 100 }

/-- `inpEx` with a single microphone (for the DOA-skipping witness). -/
def inpEx1 : SimInputs :=
  { inpEx with microphones := [(1, 0)] }

/-- `inpEx` with no microphones (for the failure-shape witness). -/
def inpEx0 : SimInputs :=
  { inpEx with microphones := [] }

/-- `inpEx` with two loadable sources (for the mixed-signal witness). -/
def inpEx2 : SimInputs :=
  { inpEx with
    audioSources := [⟨"a.wav", some ⟨250, 350⟩⟩, ⟨"d.wav", some ⟨150, 200⟩⟩]
    audioFiles := [("a.wav", some [1, -2, 1]), ("d.wav", some [0, 3])] }

/-- A concrete deterministic oracle standing in for the acoustic
library. -/
def oEx : SimOracle :=
  { render := fun _ _ => [[1, 0], [0, 1]]
    resp := fun _ => [1, 3, 2]
    recon := fun _ => [0]
    grid := [0, 1, 2] }

/-- The DOA bundle `runSimulation inpEx oEx` produces. -/
def dEx : SimDoa :=
  { azimuthGrid := oEx.grid
    spatialResponse := algoNames.map (fun a => (a, normalizeRespSim (oEx.resp a)))
    estimatedAngles := algoNames.map (fun a => (a, oEx.recon a))
    truePositions := [⟨250, 350⟩, ⟨100, 100⟩] }

/-! ## Helper lemmas -/

lemma maxAbs_nonneg (s : Signal) : 0 ≤ maxAbs s := by
  induction s with
  | nil => simp [maxAbs]
  | cons x xs ih =>
    simp only [maxAbs, List.foldr_cons] at *
    exact le_trans ih (le_max_right _ _)

lemma abs_le_maxAbs {x : ℚ} {s : Signal} (h : x ∈ s) : |x| ≤ maxAbs s := by
  induction s with
  | nil => cases h
  | cons y ys ih =>
    simp only [maxAbs, List.foldr_cons] at *
    rcases List.mem_cons.mp h with rfl | h'
    · exact le_max_left _ _
    · exact le_trans (ih h') (le_max_right _ _)

lemma maxAbs_eq_zero_all_zero {s : Signal} (h : maxAbs s = 0) :
    ∀ x ∈ s, x = 0 := by
  intro x hx
  have := abs_le_maxAbs hx
  rw [h] at this
  exact abs_eq_zero.mp (le_antisymm this (abs_nonneg x))

lemma maxAbs_map_mul (s : Signal) {c : ℚ} (hc : 0 ≤ c) :
    maxAbs (s.map (fun x => x * c)) = maxAbs s * c := by
  induction s with
  | nil => simp [maxAbs]
  | cons x xs ih =>
    simp only [List.map_cons, maxAbs, List.foldr_cons] at *
    rw [ih, abs_mul, abs_of_nonneg hc, ← max_mul_of_nonneg _ _ hc]

lemma peakNormalize_of_ne_zero {s : Signal} (h : maxAbs s ≠ 0) :
    maxAbs (peakNormalize s) = 9 / 10 := by
  have hpos : 0 < maxAbs s := lt_of_le_of_ne (maxAbs_nonneg s) (Ne.symm h)
  unfold peakNormalize
  rw [if_pos hpos]
  have hmap : s.map (fun x => x / maxAbs s * (9 / 10))
      = s.map (fun x => x * (9 / 10 / maxAbs s)) := by
    apply List.map_congr_left
    intro a _
    ring
  rw [hmap, maxAbs_map_mul s (by positivity)]
  field_simp
  ring

lemma peakNormalize_of_zero {s : Signal} (h : maxAbs s = 0) :
    peakNormalize s = s := by
  unfold peakNormalize
  rw [if_neg (by rw [h]; exact lt_irrefl 0)]

lemma mem_outputSignals {inp : SimInputs} {o : SimOracle} {s : Signal}
    (h : s ∈ (runSimulation inp o).outputSignals) :
    ∃ t, s = peakNormalize t := by
  unfold runSimulation at h
  by_cases h1 : inp.microphones.length = 0
  · rw [if_pos h1] at h
    simp at h
  · rw [if_neg h1] at h
    by_cases h2 : (activeSources inp.audioSources inp.audioFiles).length = 0
    · rw [if_pos h2] at h
      simp at h
    · rw [if_neg h2] at h
      simp only [List.mem_append, List.mem_map, Function.comp] at h
      rcases h with ⟨pm, _, hpm⟩ | hmix
      · exact ⟨_, hpm.symm⟩
      · by_cases h3 : 1 < (activeSources inp.audioSources inp.audioFiles).length
        · rw [if_pos h3] at hmix
          rcases List.mem_singleton.mp hmix with rfl
          exact ⟨_, rfl⟩
        · rw [if_neg h3] at hmix
          cases hmix

lemma foldr_min_map_affine (c d : ℚ) (hc : 0 ≤ c) (x : ℚ) (xs : List ℚ) :
    (xs.map (fun v => (v - d) * c)).foldr min ((x - d) * c)
      = (xs.foldr min x - d) * c := by
  induction xs with
  | nil => simp
  | cons y ys ih =>
    simp only [List.map_cons, List.foldr_cons]
    rw [ih, ← min_mul_of_nonneg _ _ hc, ← min_sub_sub_right]

lemma foldr_max_map_affine (c d : ℚ) (hc : 0 ≤ c) (x : ℚ) (xs : List ℚ) :
    (xs.map (fun v => (v - d) * c)).foldr max ((x - d) * c)
      = (xs.foldr max x - d) * c := by
  induction xs with
  | nil => simp
  | cons y ys ih =>
    simp only [List.map_cons, List.foldr_cons]
    rw [ih, ← max_mul_of_nonneg _ _ hc, ← max_sub_sub_right]

lemma minL_map_affine (c d : ℚ) (hc : 0 ≤ c) {resp : List ℚ} (h : resp ≠ []) :
    minL (resp.map (fun v => (v - d) * c)) = (minL resp - d) * c := by
  cases resp with
  | nil => exact absurd rfl h
  | cons x xs =>
    simp only [minL, List.map_cons]
    exact foldr_min_map_affine c d hc x xs

lemma maxL_map_affine (c d : ℚ) (hc : 0 ≤ c) {resp : List ℚ} (h : resp ≠ []) :
    maxL (resp.map (fun v => (v - d) * c)) = (maxL resp - d) * c := by
  cases resp with
  | nil => exact absurd rfl h
  | cons x xs =>
    simp only [maxL, List.map_cons]
    exact foldr_max_map_affine c d hc x xs

lemma normalizeRespSim_minmax {resp : List ℚ} (hlt : minL resp < maxL resp) :
    minL (normalizeRespSim resp) = 0 ∧ maxL (normalizeRespSim resp) = 1 := by
  have hne : resp ≠ [] := by
    intro h
    rw [h] at hlt
    exact lt_irrefl _ hlt
  have hMm : (0 : ℚ) < maxL resp - minL resp := sub_pos.mpr hlt
  have hmap : normalizeRespSim resp
      = resp.map (fun v => (v - minL resp) * (maxL resp - minL resp)⁻¹) := by
    unfold normalizeRespSim
    rw [if_pos hlt]
    exact List.map_congr_left (fun a _ => div_eq_mul_inv _ _)
  constructor
  · rw [hmap, minL_map_affine _ _ (inv_nonneg.mpr hMm.le) hne]
    simp
  · rw [hmap, maxL_map_affine _ _ (inv_nonneg.mpr hMm.le) hne]
    exact mul_inv_cancel₀ hMm.ne'

lemma atan2_pos_real {x : ℝ} (hx : 0 < x) : atan2 0 x = 0 := by
  unfold atan2
  have h : Complex.mk x 0 = (x : ℂ) := rfl
  rw [h]
  exact Complex.arg_ofReal_of_nonneg hx.le

lemma atan2_pos_imag {y : ℝ} (hy : 0 < y) : atan2 y 0 = Real.pi / 2 := by
  unfold atan2
  have h : Complex.mk 0 y = (y : ℝ) * Complex.I := by
    apply Complex.ext <;> simp
  rw [h, Complex.arg_real_mul _ hy, Complex.arg_I]

lemma trueAngle_mem_Ico (robot src : ℝ × ℝ) :
    0 ≤ trueAngle robot src ∧ trueAngle robot src < 2 * Real.pi := by
  simp only [trueAngle, atan2]
  set a := Complex.arg ⟨src.1 - robot.1, -(src.2 - robot.2)⟩ with ha
  have h1 : -Real.pi < a := Complex.neg_pi_lt_arg _
  have h2 : a ≤ Real.pi := Complex.arg_le_pi _
  have hpi : 0 < Real.pi := Real.pi_pos
  by_cases hneg : a < 0
  · rw [if_pos hneg]
    constructor <;> nlinarith
  · rw [if_neg hneg]
    push_neg at hneg
    constructor <;> nlinarith

lemma trueAngle_right {robot src : ℝ × ℝ} (hy : src.2 = robot.2)
    (hx : robot.1 < src.1) : trueAngle robot src = 0 := by
  simp only [trueAngle]
  have hdy : -(src.2 - robot.2) = 0 := by rw [hy]; ring
  have hdx : 0 < src.1 - robot.1 := sub_pos.mpr hx
  rw [hdy, atan2_pos_real hdx, if_neg (lt_irrefl 0)]

lemma trueAngle_up {robot src : ℝ × ℝ} (hx : src.1 = robot.1)
    (hy : src.2 < robot.2) : trueAngle robot src = Real.pi / 2 := by
  simp only [trueAngle]
  have hdx : src.1 - robot.1 = 0 := by rw [hx]; ring
  have hdy : 0 < -(src.2 - robot.2) := by linarith
  rw [hdx, atan2_pos_imag hdy,
    if_neg (not_lt.mpr (by positivity : (0:ℝ) ≤ Real.pi / 2))]

lemma length_filterMap_option_map (f : (ℝ × ℝ) → ℝ)
    (srcs : List (Option (ℝ × ℝ))) :
    (srcs.filterMap (fun s => s.map f)).length = (srcs.filterMap id).length := by
  induction srcs with
  | nil => rfl
  | cons s ss ih => cases s <;> simp [List.filterMap_cons, ih]

lemma foldr_min_le_init (xs : List Signal) (n : ℕ) :
    xs.foldr (fun t acc => min t.length acc) n ≤ n := by
  induction xs with
  | nil => exact le_refl n
  | cons y ys ih => exact le_trans (min_le_right _ _) ih

lemma foldr_min_le_mem {xs : List Signal} {t : Signal} (h : t ∈ xs) (n : ℕ) :
    xs.foldr (fun t acc => min t.length acc) n ≤ t.length := by
  induction xs with
  | nil => cases h
  | cons y ys ih =>
    rcases List.mem_cons.mp h with rfl | h'
    · exact min_le_left _ _
    · exact le_trans (min_le_right _ _) (ih h')

lemma minLength_le {sigs : List Signal} {t : Signal} (h : t ∈ sigs) :
    minLength sigs ≤ t.length := by
  cases sigs with
  | nil => cases h
  | cons x xs =>
    simp only [minLength]
    rcases List.mem_cons.mp h with rfl | h'
    · exact foldr_min_le_init xs t.length
    · exact foldr_min_le_mem h' x.length

lemma forall2_take (n : ℕ) (sigs : List Signal) :
    List.Forall₂ (fun t s => s = t.take n) sigs
      (sigs.map (fun s => s.take n)) := by
  induction sigs with
  | nil => exact List.Forall₂.nil
  | cons x xs ih => exact List.Forall₂.cons rfl ih

lemma isStream_unique : ∀ {n s : ℕ} {d₁ d₂ : List ℕ},
    IsStream s n d₁ → IsStream s n d₂ → d₁ = d₂ := by
  intro n
  induction n with
  | zero =>
    intro s d₁ d₂ h₁ h₂
    cases h₁
    cases h₂
    rfl
  | succ k ih =>
    intro s d₁ d₂ h₁ h₂
    cases h₁ with
    | cons _ _ rest₁ hr₁ =>
      cases h₂ with
      | cons _ _ rest₂ hr₂ => rw [ih hr₁ hr₂]

lemma isStream_prngStream : ∀ (n s : ℕ), IsStream s n (prngStream s n) := by
  intro n
  induction n with
  | zero => intro s; exact IsStream.nil s
  | succ k ih => intro s; exact IsStream.cons s k _ (ih (lcgNext s))

lemma doa_spatialResponse_normalized {inp : SimInputs} {o : SimOracle}
    {d : SimDoa} (h : (runSimulation inp o).doa = some d) :
    ∀ p ∈ d.spatialResponse, ∃ raw, p.2 = normalizeRespSim raw := by
  unfold runSimulation at h
  by_cases h1 : inp.microphones.length = 0
  · rw [if_pos h1] at h
    cases h
  · rw [if_neg h1] at h
    by_cases h2 : (activeSources inp.audioSources inp.audioFiles).length = 0
    · rw [if_pos h2] at h
      cases h
    · rw [if_neg h2] at h
      by_cases h3 : 2 ≤ inp.microphones.length
      · rw [if_pos h3] at h
        cases h
        intro p hp
        rcases List.mem_map.mp hp with ⟨a, _, rfl⟩
        exact ⟨o.resp a, rfl⟩
      · rw [if_neg h3] at h
        cases h

/-! ## Claim theorems -/

/-- **C1, counterexample.** The claim says every flat spatial-response
curve is returned as all zeros. The normalization inline in
`run_simulation` (`simulation.py` lines 184–190) has no flat-curve
branch: the flat curve `[1, 1]` is returned unchanged, not zeroed. -/
theorem C1_counterexample :
    maxL [(1 : ℚ), 1] = minL [(1 : ℚ), 1] ∧
    normalizeRespSim [(1 : ℚ), 1] = [1, 1] ∧
    normalizeRespSim [(1 : ℚ), 1] ≠ [0, 0] := by
  refine ⟨rfl, ?_, ?_⟩
  · unfold normalizeRespSim
    rw [if_neg (by norm_num [minL, maxL])]
  · unfold normalizeRespSim
    rw [if_neg (by norm_num [minL, maxL])]
    simp

/-- **C1, amended.** Non-flat response curves are min–max normalized to
minimum 0 and maximum 1 by both normalization sites, and every response
curve in `run_simulation`'s DOA bundle passes through its normalizer;
but only `run_doa` (`doa.py` lines 97–103) maps a flat curve to all
zeros — the inline normalizer of `run_simulation` (lines 184–190)
returns a flat curve unchanged. -/
theorem C1_response_normalization (resp : List ℚ) (inp : SimInputs)
    (o : SimOracle) :
    (minL resp < maxL resp →
      minL (normalizeRespSim resp) = 0 ∧ maxL (normalizeRespSim resp) = 1 ∧
      normalizeRespDoa resp = normalizeRespSim resp) ∧
    (¬ minL resp < maxL resp →
      normalizeRespSim resp = resp ∧
      normalizeRespDoa resp = List.replicate resp.length 0) ∧
    (∀ d, (runSimulation inp o).doa = some d →
      ∀ p ∈ d.spatialResponse, ∃ raw, p.2 = normalizeRespSim raw) := by
  refine ⟨fun hlt => ?_, fun hflat => ?_, fun d hd => doa_spatialResponse_normalized hd⟩
  · obtain ⟨hmin, hmax⟩ := normalizeRespSim_minmax hlt
    refine ⟨hmin, hmax, ?_⟩
    unfold normalizeRespSim normalizeRespDoa
    rw [if_pos hlt, if_pos hlt]
  · constructor
    · unfold normalizeRespSim
      rw [if_neg hflat]
    · unfold normalizeRespDoa
      rw [if_neg hflat]

/-- **C1, witness.** The amended statement at the non-flat curve
`[1, 3, 2]`, the flat curve `[2, 2]`, and the DOA bundle of a concrete
run. -/
theorem C1_witness :
    (minL (normalizeRespSim [1, 3, 2]) = 0 ∧
      maxL (normalizeRespSim [1, 3, 2]) = 1 ∧
      normalizeRespDoa [1, 3, 2] = normalizeRespSim [1, 3, 2]) ∧
    (normalizeRespSim [(2 : ℚ), 2] = [2, 2] ∧
      normalizeRespDoa [(2 : ℚ), 2] = List.replicate 2 0) ∧
    (∀ p ∈ dEx.spatialResponse, ∃ raw, p.2 = normalizeRespSim raw) :=
  ⟨(C1_response_normalization [1, 3, 2] inpEx oEx).1 (by norm_num [minL, maxL]),
   (C1_response_normalization [2, 2] inpEx oEx).2.1 (by norm_num [minL, maxL]),
   (C1_response_normalization [1, 3, 2] inpEx oEx).2.2 dEx rfl⟩

/-- **C2.** Every signal handed to the output boundary (per-source and
mixed) has been peak-normalized: its peak is exactly 9/10 of full
scale, unless it is all zeros; and the normalizer scales any signal of
nonzero peak to peak 9/10 while passing a zero-peak signal through
unchanged, with no division performed. -/
theorem C2_peak_normalization (inp : SimInputs) (o : SimOracle) :
    (∀ s ∈ (runSimulation inp o).outputSignals,
      maxAbs s = 9 / 10 ∨ ∀ x ∈ s, x = 0) ∧
    (∀ t : Signal, maxAbs t ≠ 0 → maxAbs (peakNormalize t) = 9 / 10) ∧
    (∀ t : Signal, maxAbs t = 0 → peakNormalize t = t) := by
  refine ⟨?_, fun t ht => peakNormalize_of_ne_zero ht,
    fun t ht => peakNormalize_of_zero ht⟩
  intro s hs
  obtain ⟨t, rfl⟩ := mem_outputSignals hs
  by_cases ht : maxAbs t = 0
  · right
    rw [peakNormalize_of_zero ht]
    exact maxAbs_eq_zero_all_zero ht
  · left
    exact peakNormalize_of_ne_zero ht

/-- **C2, witness.** The per-source output of a concrete run peaks at
9/10; the normalizer at the nonsilent signal `[1, -2, 1]` and the
silent signal `[0, 0]`. -/
theorem C2_witness :
    (maxAbs [(9 : ℚ)/10, 9/10] = 9 / 10 ∨ ∀ x ∈ [(9 : ℚ)/10, 9/10], x = 0) ∧
    maxAbs (peakNormalize [(1 : ℚ), -2, 1]) = 9 / 10 ∧
    peakNormalize [(0 : ℚ), 0] = [0, 0] := by
  refine ⟨(C2_peak_normalization inpEx oEx).1 [(9 : ℚ)/10, 9/10] ?_,
    (C2_peak_normalization inpEx oEx).2.1 [(1 : ℚ), -2, 1] (by norm_num [maxAbs]),
    (C2_peak_normalization inpEx oEx).2.2 [(0 : ℚ), 0] (by norm_num [maxAbs])⟩
  have houts : (runSimulation inpEx oEx).outputSignals
      = [peakNormalize (meanSignal [[1, 0], [0, 1]])] := rfl
  have hval : peakNormalize (meanSignal [[1, 0], [0, 1]]) = [9/10, 9/10] := by
    norm_num [peakNormalize, meanSignal, addSig, maxAbs, abs]
  rw [houts, hval]
  exact List.mem_singleton.mpr rfl

/-- **C3.** With at least one microphone, a source whose position is
unset, whose name has no audio payload, or whose payload fails to load
is skipped (see `activeSources`), and the run is reported as a failure
exactly when no source survives this filtering. -/
theorem C3_per_source_failure_isolation (inp : SimInputs) (o : SimOracle)
    (h : inp.microphones ≠ []) :
    (runSimulation inp o).success = false ↔
      activeSources inp.audioSources inp.audioFiles = [] := by
  have h1 : ¬ inp.microphones.length = 0 := fun hz => h (List.length_eq_zero.mp hz)
  unfold runSimulation
  rw [if_neg h1]
  by_cases h2 : (activeSources inp.audioSources inp.audioFiles).length = 0
  · rw [if_pos h2]
    simpa using List.length_eq_zero.mp h2
  · rw [if_neg h2]
    exact iff_of_false (by simp) (fun hx => h2 (by rw [hx]; rfl))

/-- **C3, witness.** The concrete run `inpEx` (one loadable source, one
unplaced source, one source whose payload fails to decode): the run
does not fail, and indeed a source survives. -/
theorem C3_witness :
    (runSimulation inpEx oEx).success = false ↔
      activeSources inpEx.audioSources inpEx.audioFiles = [] :=
  C3_per_source_failure_isolation inpEx oEx (by decide)

/-- **C5.** With exactly one microphone and at least one surviving
source, the run succeeds, produces rendered signals, and its DOA field
is simply `none`. -/
theorem C5_single_mic_skips_doa (inp : SimInputs) (o : SimOracle)
    (h1 : inp.microphones.length = 1)
    (h2 : activeSources inp.audioSources inp.audioFiles ≠ []) :
    (runSimulation inp o).success = true ∧
    (runSimulation inp o).doa = none ∧
    (runSimulation inp o).outputSignals ≠ [] := by
  have hz : ¬ inp.microphones.length = 0 := by omega
  have h2' : ¬ (activeSources inp.audioSources inp.audioFiles).length = 0 :=
    fun hx => h2 (List.length_eq_zero.mp hx)
  have hlt : ¬ 2 ≤ inp.microphones.length := by omega
  unfold runSimulation
  rw [if_neg hz, if_neg h2']
  refine ⟨rfl, ?_, ?_⟩
  · show (if 2 ≤ inp.microphones.length then _ else none) = none
    rw [if_neg hlt]
  · intro heq
    rcases List.append_eq_nil.mp heq with ⟨hmap, -⟩
    exact h2 (List.map_eq_nil_iff.mp (List.map_eq_nil_iff.mp hmap))

/-- **C5, witness.** The one-microphone run `inpEx1`. -/
theorem C5_witness :
    (runSimulation inpEx1 oEx).success = true ∧
    (runSimulation inpEx1 oEx).doa = none ∧
    (runSimulation inpEx1 oEx).outputSignals ≠ [] :=
  C5_single_mic_skips_doa inpEx1 oEx rfl (by decide)

/-- **C6.** A successful run emits exactly one output per surviving
source plus one mixed output exactly when more than one source
survives, and the emitted signals are in bijection with the emitted
file names. -/
theorem C6_output_counts (inp : SimInputs) (o : SimOracle)
    (h : (runSimulation inp o).success = true) :
    (runSimulation inp o).outputFiles.length =
      (activeSources inp.audioSources inp.audioFiles).length +
        (if 1 < (activeSources inp.audioSources inp.audioFiles).length
          then 1 else 0) ∧
    (runSimulation inp o).outputSignals.length =
      (runSimulation inp o).outputFiles.length := by
  unfold runSimulation at h ⊢
  by_cases h1 : inp.microphones.length = 0
  · rw [if_pos h1] at h
    cases h
  · rw [if_neg h1] at h ⊢
    by_cases h2 : (activeSources inp.audioSources inp.audioFiles).length = 0
    · rw [if_pos h2] at h
      cases h
    · rw [if_neg h2]
      by_cases h3 : 1 < (activeSources inp.audioSources inp.audioFiles).length
      · simp [h3]
      · simp [h3]

/-- **C6, witness.** The two-source run `inpEx2`: two per-source
outputs plus one mixed output. -/
theorem C6_witness :
    (runSimulation inpEx2 oEx).outputFiles.length =
      (activeSources inpEx2.audioSources inpEx2.audioFiles).length +
        (if 1 < (activeSources inpEx2.audioSources inpEx2.audioFiles).length
          then 1 else 0) ∧
    (runSimulation inpEx2 oEx).outputSignals.length =
      (runSimulation inpEx2 oEx).outputFiles.length :=
  C6_output_counts inpEx2 oEx rfl

/-- **C9.** Whenever `run_simulation` reports failure, the output file
list and output signal list are empty and the DOA field is `none` — no
partial outputs accompany a failure. -/
theorem C9_failure_no_partial_outputs (inp : SimInputs) (o : SimOracle)
    (h : (runSimulation inp o).success = false) :
    (runSimulation inp o).outputFiles = [] ∧
    (runSimulation inp o).outputSignals = [] ∧
    (runSimulation inp o).doa = none := by
  unfold runSimulation at h ⊢
  by_cases h1 : inp.microphones.length = 0
  · rw [if_pos h1]
    exact ⟨rfl, rfl, rfl⟩
  · rw [if_neg h1] at h ⊢
    by_cases h2 : (activeSources inp.audioSources inp.audioFiles).length = 0
    · rw [if_pos h2]
      exact ⟨rfl, rfl, rfl⟩
    · rw [if_neg h2] at h
      cases h

/-- **C9, witness.** The zero-microphone run `inpEx0` fails with no
outputs and no DOA bundle. -/
theorem C9_witness :
    (runSimulation inpEx0 oEx).outputFiles = [] ∧
    (runSimulation inpEx0 oEx).outputSignals = [] ∧
    (runSimulation inpEx0 oEx).doa = none :=
  C9_failure_no_partial_outputs inpEx0 oEx rfl

/-- **C4.** `calculate_true_angles` skips inactive (absent) sources, so
its output length is the number of active sources; it agrees with the
inline loop of `run_simulation`; every bearing — defined as
`atan2(-dy, dx)` with a full turn added when negative (`trueAngle`) —
lies in `[0, 2π)`; a source directly to the right of the reference
(same vertical coordinate, larger horizontal coordinate) bears 0, and a
source directly above it in screen convention (smaller vertical
coordinate) bears π/2. -/
theorem C4_ground_truth_bearings (robot : ℝ × ℝ)
    (srcs : List (Option (ℝ × ℝ))) (scale : ℝ) :
    calculate_true_angles robot srcs scale
      = srcs.filterMap (fun s => s.map (trueAngle robot)) ∧
    simTrueAngles robot srcs = calculate_true_angles robot srcs scale ∧
    (calculate_true_angles robot srcs scale).length
      = (srcs.filterMap id).length ∧
    (∀ a ∈ calculate_true_angles robot srcs scale,
      0 ≤ a ∧ a < 2 * Real.pi) ∧
    (∀ src : ℝ × ℝ, src.2 = robot.2 → robot.1 < src.1 →
      trueAngle robot src = 0) ∧
    (∀ src : ℝ × ℝ, src.1 = robot.1 → src.2 < robot.2 →
      trueAngle robot src = Real.pi / 2) := by
  refine ⟨rfl, rfl, length_filterMap_option_map _ srcs, ?_,
    fun src hy hx => trueAngle_right hy hx,
    fun src hx hy => trueAngle_up hx hy⟩
  intro a ha
  rcases List.mem_filterMap.mp ha with ⟨s, _, hs⟩
  cases s with
  | none => cases hs
  | some p =>
    obtain rfl : trueAngle robot p = a := Option.some_injective _ hs
    exact trueAngle_mem_Ico robot p

/-- **C4, witness.** A reference at the origin with an active source to
its right, an inactive source, and an active source above it: two
bearings, 0 and π/2. -/
theorem C4_witness :
    (calculate_true_angles (0, 0) [some (1, 0), none, some (0, -2)] 100).length
      = ([some ((1 : ℝ), (0 : ℝ)), none, some (0, -2)].filterMap id).length ∧
    trueAngle (0, 0) (1, 0) = 0 ∧
    trueAngle (0, 0) (0, -2) = Real.pi / 2 :=
  ⟨(C4_ground_truth_bearings (0, 0) [some (1, 0), none, some (0, -2)]
      100).2.2.1,
   (C4_ground_truth_bearings (0, 0) [] 0).2.2.2.2.1 (1, 0) rfl (by norm_num),
   (C4_ground_truth_bearings (0, 0) [] 0).2.2.2.2.2 (0, -2) rfl (by norm_num)⟩

/-- **C7, counterexample.** The claim says unequal per-microphone
sequences are zero-padded to a common length with no samples
discarded. The source (`doa.py` lines 64–66) instead truncates every
channel to the shortest channel's length: on `[[1, 2], [3]]` it
produces `[[1], [3]]`, discarding a sample, whereas zero-padding would
produce `[[1, 2], [3, 0]]`. -/
theorem C7_counterexample :
    equalizeLengths [[1, 2], [3]] = [[(1 : ℚ)], [3]] ∧
    zeroPadToCommon [[1, 2], [3]] = [[(1 : ℚ), 2], [3, 0]] ∧
    equalizeLengths [[(1 : ℚ), 2], [3]] ≠ zeroPadToCommon [[1, 2], [3]] ∧
    ((equalizeLengths [[(1 : ℚ), 2], [3]]).map List.length).sum <
      (([[(1 : ℚ), 2], [3]] : List Signal).map List.length).sum := by
  refine ⟨rfl, rfl, ?_, by norm_num [equalizeLengths, minLength]⟩
  intro h
  rw [show equalizeLengths [[(1 : ℚ), 2], [3]] = [[(1 : ℚ)], [3]] from rfl,
    show zeroPadToCommon [[1, 2], [3]] = [[(1 : ℚ), 2], [3, 0]] from rfl] at h
  simp at h

/-- **C7, amended.** Before the framed transform (window `NFFT = 256`,
hop `NFFT // 2 = 128`) is applied, per-microphone sequences of unequal
length are *truncated* to the shortest channel's length — each output
channel is the corresponding input channel's prefix of length
`minLength`, so excess samples are discarded, and nothing is padded. -/
theorem C7_stft_input_truncation (sigs : List Signal) :
    List.Forall₂ (fun t s => s = t.take (minLength sigs)) sigs
      (equalizeLengths sigs) ∧
    (∀ s ∈ equalizeLengths sigs, s.length = minLength sigs) ∧
    NFFT = 256 ∧ STFT_HOP = 128 := by
  refine ⟨forall2_take (minLength sigs) sigs, ?_, rfl, rfl⟩
  intro s hs
  rcases List.mem_map.mp hs with ⟨t, ht, rfl⟩
  rw [List.length_take]
  exact min_eq_left (minLength_le ht)

/-- **C7, witness.** Truncation of a concrete pair of mismatched
channels. -/
theorem C7_witness :
    (∀ s ∈ equalizeLengths [[(1 : ℚ), 2], [3]],
      s.length = minLength [[(1 : ℚ), 2], [3]]) ∧
    NFFT = 256 ∧ STFT_HOP = 128 :=
  ⟨(C7_stft_input_truncation [[(1 : ℚ), 2], [3]]).2.1,
   (C7_stft_input_truncation [[(1 : ℚ), 2], [3]]).2.2.1,
   (C7_stft_input_truncation [[(1 : ℚ), 2], [3]]).2.2.2⟩

/-- **C8.** Two executions of the full pipeline from the same inputs
and the same generator seed are equal: the seed admits exactly one
stream of ray draws, so the room impulse responses and all output
signals of the two runs are identical. -/
theorem C8_two_run_determinism (inp : SimInputs) (seed : ℕ)
    (r₁ r₂ : SimResult × List (List Signal))
    (h₁ : PipelineRun inp seed r₁) (h₂ : PipelineRun inp seed r₂) :
    r₁ = r₂ := by
  cases h₁ with
  | mk d₁ hs₁ =>
    cases h₂ with
    | mk d₂ hs₂ => rw [isStream_unique hs₁ hs₂]

/-- **C8, witness.** Two concrete runs of the pipeline from seed 7 on
`inpEx` coincide. -/
theorem C8_witness :
    (runSimulation inpEx (oracleFrom (prngStream 7 N_RAYS)),
      rirsFrom inpEx (prngStream 7 N_RAYS))
    = (runSimulation inpEx (oracleFrom (prngStream 7 N_RAYS)),
      rirsFrom inpEx (prngStream 7 N_RAYS)) :=
  C8_two_run_determinism inpEx 7 _ _
    (PipelineRun.mk (prngStream 7 N_RAYS) (isStream_prngStream N_RAYS 7))
    (PipelineRun.mk (prngStream 7 N_RAYS) (isStream_prngStream N_RAYS 7))

/-- **C10.** The pixel-to-meter scale parameter has no influence on the
ground-truth bearings: `calculate_true_angles` returns identical lists
for any two scale values (the source accepts `scale` and never reads
it). -/
theorem C10_scale_has_no_influence (robot : ℝ × ℝ)
    (srcs : List (Option (ℝ × ℝ))) (scale₁ scale₂ : ℝ) :
    calculate_true_angles robot srcs scale₁
      = calculate_true_angles robot srcs scale₂ := rfl

end PyRoomSim
